import Mathlib

/-!
Verification of the recording/translation session lifecycle of the
voice-to-voice translation front-end (src/App.tsx, src/services/geminiService.ts,
src/utils/audioUtils.ts, src/types.ts).

The session controller of `App.tsx` is embedded as an explicit state machine:
the React component's state hooks and refs become fields of a `Ctrl` record,
and each UI callback / asynchronous continuation becomes a function on `Ctrl`.
External collaborators (the microphone, the MediaRecorder chunk callback, the
Groq network round trip, the speech-synthesis engine, timers) are modelled as
event inputs chosen by the environment.  `Reach media s` says state `s` is
reachable in a page load where `media` records whether the platform exposes
`navigator.mediaDevices.getUserMedia` (this capability is fixed per page load).
-/

/-- The five-value app state enum of `src/types.ts` (`AppState`). -/
inductive AppState
  | IDLE
  | RECORDING
  | PROCESSING
  | SPEAKING
  | ERROR
deriving DecidableEq

/-- The two-value language classification of `detectLanguageFromText`
(`src/utils/audioUtils.ts`). -/
inductive Lang
  | zh
  | en
deriving DecidableEq

/-- A character matched by the regex character class `[一-龥]` of
`detectLanguageFromText` in `src/utils/audioUtils.ts`. -/
def isChineseChar (c : Char) : Bool :=
  decide (0x4E00 ≤ c.toNat ∧ c.toNat ≤ 0x9FA5)

/-- `detectLanguageFromText` from `src/utils/audioUtils.ts`: returns `zh`
when the text contains a character matched by `[一-龥]`, else `en`. -/
def detectLanguageFromText (text : String) : Lang :=
  if text.data.any isChineseChar then Lang.zh else Lang.en

/-- The utterance language tag chosen by `speakText`
(`src/utils/audioUtils.ts`): `utterance.lang` is set per detected language. -/
def utteranceLangTag : Lang → String
  | Lang.zh => "zh-CN"
  | Lang.en => "en-US"

/- Substring search, modelling JavaScript `String.prototype.includes`. -/

/-- `leadsWith p l` is true when list `p` is an initial segment of `l`. -/
def leadsWith : List Char → List Char → Bool
  | [], _ => true
  | _ :: _, [] => false
  | p :: ps, c :: cs => p = c && leadsWith ps cs

/-- `hasSub sub l` is true when `sub` occurs contiguously inside `l`. -/
def hasSub (sub : List Char) : List Char → Bool
  | [] => leadsWith sub []
  | c :: cs => leadsWith sub (c :: cs) || hasSub sub cs

/-- JS `s.includes(sub)` on strings. -/
def containsSub (s sub : String) : Bool :=
  hasSub sub.data s.data

/-- First-occurrence replacement on character lists, modelling JavaScript
`String.prototype.replace` with a string pattern (replaces only the first
occurrence; returns the input unchanged when the pattern does not occur). -/
def replFirstAux (pat rep : List Char) : List Char → List Char
  | [] => []
  | c :: cs =>
    if leadsWith pat (c :: cs) then rep ++ List.drop pat.length (c :: cs)
    else c :: replFirstAux pat rep cs

/-- JS `s.replace(pat, rep)` with a string pattern. -/
def replaceFirst (s pat rep : String) : String :=
  String.mk (replFirstAux pat.data rep.data s.data)

/-- The `\x7b` character, used by the error-message cleanup check
`rawError.includes(String.fromCharCode(123))` in `App.tsx`. -/
def braceChar : Char := Char.ofNat 123

/- User-visible message strings of `App.tsx` and `geminiService.ts`. -/

/-- Message thrown when `navigator.mediaDevices`/`getUserMedia` is absent
(`App.tsx` line 109). -/
def noMediaMsg : String := "无法访问麦克风。请确保您使用的是 HTTPS 协议或本地环境。"

/-- Message used when `getUserMedia` rejects with `NotAllowedError`
(`App.tsx` line 190). -/
def permDeniedMsg : String := "麦克风权限被拒绝，请在浏览器设置中允许。"

/-- Default microphone failure message (`App.tsx` line 188). -/
def micDefaultMsg : String := "无法访问麦克风，请检查权限。"

/-- Message thrown by the payload size check `audioBlob.size < 100`
(`App.tsx` line 245): the EmptyPayload condition. -/
def emptyPayloadMsg : String := "录音数据为空"

/-- Network failure display message (`App.tsx` line 283). -/
def networkFailMsg : String := "网络连接失败。请检查您的网络连接或尝试配置代理。"

/-- Missing-local-key display message (`App.tsx` line 287). -/
def missingKeyDisplayMsg : String := "未找到 API Key，请重新输入。"

/-- Default translation failure display message (`App.tsx` line 265). -/
def translateFailDefaultMsg : String := "翻译失败，请重试。"

/-- The error-name mapping of the `startRecording` catch block
(`App.tsx` lines 186-196): `NotAllowedError` gets a fixed message, any other
error with a non-empty message passes it through, else a default. -/
def gumErrMsg (name msg : String) : String :=
  if name = "NotAllowedError" then permDeniedMsg
  else if msg ≠ "" then msg
  else micDefaultMsg

/-- The error string thrown by `translateAudio` when the Groq transcription
response is not ok (`src/services/geminiService.ts` lines 89-97): a 401
status is mapped to the dedicated `API_KEY_INVALID` error class, any other
failing status to a generic `Groq Transcription Error`. -/
def transcriptionError (status : Nat) (errMsg : String) : String :=
  if status = 401 then "API_KEY_INVALID: " ++ errMsg
  else "Groq Transcription Error: " ++ errMsg

/-- The error message cleanup of the `handleTranslationProcess` catch block
(`App.tsx` lines 268-276): when the raw message contains a `\x7b` character
the substring from that character is fed to `JSON.parse` and, if it parses to
an object with `error.message`, the raw message is replaced by it.  The parse
is an external library call; its result is the `parsed` input (`none` when
parsing failed or the field was missing). -/
def cleanRaw (raw : String) (parsed : Option String) : String :=
  if raw.data.any (fun c => c == braceChar) then
    match parsed with
    | some m => m
    | none => raw
  else raw

/-- Outcome of the error classification in the `handleTranslationProcess`
catch block: the display message and whether the configuration-present flag
`hasApiKey` is to be cleared. -/
structure CatchResult where
  display : String
  clearKey : Bool
deriving DecidableEq

/-- The error classification of `handleTranslationProcess`'s catch block
(`App.tsx` lines 262-294), faithful to the branch order of the source:
network errors first, then missing/invalid key errors (which clear the
`hasApiKey` flag), then pass-through of a non-empty message, else a default. -/
def classifyError (raw0 : String) (parsed : Option String) : CatchResult :=
  let rawError := cleanRaw raw0 parsed
  let isKeyError := containsSub rawError "API Key" || containsSub rawError "401" ||
      containsSub rawError "API_KEY_INVALID"
  let isMissingLocalKey := containsSub rawError "MISSING_API_KEY_LOCAL"
  let isNetworkError := containsSub rawError "Failed to fetch" ||
      containsSub rawError "NetworkError"
  if isNetworkError then
    { display := networkFailMsg, clearKey := false }
  else if isMissingLocalKey || isKeyError then
    { display :=
        if isMissingLocalKey then missingKeyDisplayMsg
        else "API Key 无效: " ++ replaceFirst rawError "API_KEY_INVALID:" "",
      clearKey := true }
  else if rawError ≠ "" then
    { display := rawError, clearKey := false }
  else
    { display := translateFailDefaultMsg, clearKey := false }

/-- The state of the session controller of `App.tsx`: the `useState` hooks
(`appState`, `translation`, `errorMsg`, `hasApiKey`) and the `useRef` cells
(`mediaRecorderRef` recording status, `audioChunksRef` total size,
`startTimeRef`, `isShortRecordingRef`, `streamRef`, `audioContextRef`),
plus the observable speech-synthesis status and the pending
`setTimeout` reset delay.

- `micHeld`: `streamRef` holds a `MediaStream` whose tracks were not stopped.
- `graphOpen`: `audioContextRef` holds an `AudioContext` that was not closed.
- `recording`: a `MediaRecorder` exists and its state is `recording`.
- `chunksSize`: total byte size of `audioChunksRef` (the eventual blob size).
- `speechActive`: an utterance is playing on `window.speechSynthesis`.
- `lastSpeech`: text and language tag of the last `speakText` request.
- `resetTimer`: delay of the pending `setTimeout` reset to IDLE, if any.
  At most one reset timer can be pending at a time in the source: arming one
  requires a translation success, which requires a recording of at least
  1000 ms started after the previous arming, by which time the previous
  1000 ms timer has fired.
- `spoke`: ghost flag, true once this session's translation succeeded.
- `inFlight`: number of issued `translateAudio` calls whose promise has not
  settled yet.
- `translationAttempts`: number of `translateAudio` invocations issued. -/
structure Ctrl where
  state : AppState
  translation : Option String
  errorMsg : Option String
  hasApiKey : Bool
  micHeld : Bool
  graphOpen : Bool
  recording : Bool
  chunksSize : Nat
  startTime : Nat
  isShort : Bool
  speechActive : Bool
  lastSpeech : Option (String × Lang)
  resetTimer : Option Nat
  spoke : Bool
  inFlight : Nat
  translationAttempts : Nat
deriving DecidableEq

/-- The initial controller state: the `useState` initial values of `App.tsx`
(IDLE, no translation, no error, `hasApiKey` initially true) and empty refs. -/
def initCtrl : Ctrl where
  state := AppState.IDLE
  translation := none
  errorMsg := none
  hasApiKey := true
  micHeld := false
  graphOpen := false
  recording := false
  chunksSize := 0
  startTime := 0
  isShort := false
  speechActive := false
  lastSpeech := none
  resetTimer := none
  spoke := false
  inFlight := 0
  translationAttempts := 0

/-- Environment-chosen outcome of one `startRecording` invocation on a
platform that has `getUserMedia` (`App.tsx` lines 106-197):

- `gumDenied name msg`: `getUserMedia` rejected with an error of the given
  name and message (no stream was acquired);
- `postAcquireFail name msg`: `getUserMedia` resolved and the audio graph was
  built, but a later step threw (the realizable point modelled here is the
  `MediaRecorder` construction, after the `AudioContext` graph exists);
- `ok`: the recorder started. -/
inductive StartOutcome
  | gumDenied (name msg : String)
  | postAcquireFail (name msg : String)
  | ok
deriving DecidableEq

/-- The synchronous head of `startRecording` once the capability check has
passed (`App.tsx` lines 112-118): the state becomes RECORDING, the previous
error and translation are cleared, any playing utterance is cancelled,
the start timestamp is taken and the short-recording flag reset. -/
def startClear (now : Nat) (s : Ctrl) : Ctrl :=
  { s with
    state := AppState.RECORDING
    errorMsg := none
    translation := none
    speechActive := false
    spoke := false
    startTime := now
    isShort := false }

/-- The sequence of controller states produced by one `startRecording`
invocation (`App.tsx` lines 106-197), in order of occurrence.

When the platform lacks `navigator.mediaDevices`/`getUserMedia`
(`media = false`), the check at line 108 throws before anything is cleared:
the single resulting state is ERROR with the capture-unavailable message and
all other fields unchanged.

Otherwise the cleared RECORDING state (`startClear`) is visible while
`getUserMedia` is pending, followed by the outcome state.  Note the catch
block (lines 186-196) stops no tracks and closes no context, so on
`postAcquireFail` the stream and audio graph stay held. -/
def startVisited (media : Bool) (now : Nat) (o : StartOutcome) (s : Ctrl) : List Ctrl :=
  if media then
    let s1 := startClear now s
    match o with
    | StartOutcome.gumDenied name msg =>
        [s1, { s1 with state := AppState.ERROR, errorMsg := some (gumErrMsg name msg) }]
    | StartOutcome.postAcquireFail name msg =>
        [s1, { s1 with
                 micHeld := true
                 graphOpen := true
                 state := AppState.ERROR
                 errorMsg := some (gumErrMsg name msg) }]
    | StartOutcome.ok =>
        [s1, { s1 with
                 micHeld := true
                 graphOpen := true
                 recording := true
                 chunksSize := 0 }]
  else
    [{ s with state := AppState.ERROR, errorMsg := some noMediaMsg }]

/-- One `ondataavailable` callback (`App.tsx` lines 178-182): while the
recorder is recording, a chunk of `n` bytes is appended (empty chunks are
skipped by the source, which leaves the total size unchanged, as does
adding `0`). -/
def chunkEvt (n : Nat) (s : Ctrl) : Ctrl :=
  if s.recording then { s with chunksSize := s.chunksSize + n } else s

/-- The catch block of `handleTranslationProcess` (`App.tsx` lines 262-294)
applied to a raw error message: classifies the error, stores the display
message, clears `hasApiKey` on key errors, and enters ERROR. -/
def applyCatch (raw : String) (parsed : Option String) (s : Ctrl) : Ctrl :=
  let r := classifyError raw parsed
  { s with
    state := AppState.ERROR
    errorMsg := some r.display
    hasApiKey := if r.clearKey then false else s.hasApiKey }

/-- `stopRecording` together with the synchronous part of its `onstop`
continuation and of `handleTranslationProcess` (`App.tsx` lines 199-250):

- the elapsed duration is compared against 1000 ms and the short-recording
  flag set accordingly (lines 201-204) — this happens whether or not a
  recorder is active;
- when a recorder is recording, it is stopped and `onstop` releases the
  stream tracks and closes the audio context (lines 209-221), then either
  resets to IDLE for a short recording (lines 224-229) or enters
  `handleTranslationProcess`, which sets PROCESSING, fails synchronously to
  ERROR when the blob is under 100 bytes (lines 237-246 with the catch
  block), or issues the `translateAudio` call and suspends in PROCESSING;
- when no recorder is recording, nothing else happens. -/
def shortAfter (now : Nat) (s : Ctrl) : Bool :=
  s.isShort || decide (now - s.startTime < 1000)

/-- The resource cleanup at the head of the `onstop` handler (`App.tsx`
lines 209-221): the recorder is stopped, all stream tracks are stopped and
the audio context closed, and the short-recording flag has been updated. -/
def stopCleanup (now : Nat) (s : Ctrl) : Ctrl :=
  { s with
      isShort := shortAfter now s
      recording := false
      micHeld := false
      graphOpen := false }

def stopRec (now : Nat) (s : Ctrl) : Ctrl :=
  if s.recording then
    if shortAfter now s then
      { stopCleanup now s with
          state := AppState.IDLE
          translation := none
          errorMsg := none }
    else if s.chunksSize < 100 then
      applyCatch emptyPayloadMsg none { stopCleanup now s with state := AppState.PROCESSING }
    else
      { stopCleanup now s with
          state := AppState.PROCESSING
          inFlight := s.inFlight + 1
          translationAttempts := s.translationAttempts + 1 }
  else
    { s with isShort := shortAfter now s }

/-- Environment-chosen outcome of the in-flight translation round trip:
either the translated text, or a thrown error message together with the
result of the JSON cleanup attempt on it (see `cleanRaw`). -/
inductive TransResult
  | ok (text : String)
  | err (raw : String) (parsed : Option String)
deriving DecidableEq

/-- Resumption of `handleTranslationProcess` when the awaited
`translateAudio` call settles (`App.tsx` lines 250-294).  On success the
translation is stored, the state becomes SPEAKING, speech output is
requested with the language produced by `detectLanguageFromText` on the
translated text, and a 1000 ms reset timer is armed.  On failure the catch
block runs. -/
def translateDone (res : TransResult) (s : Ctrl) : Ctrl :=
  match res with
  | TransResult.ok t =>
      { s with
        translation := some t
        state := AppState.SPEAKING
        spoke := true
        speechActive := true
        lastSpeech := some (t, detectLanguageFromText t)
        resetTimer := some 1000
        inFlight := s.inFlight - 1 }
  | TransResult.err raw parsed =>
      { applyCatch raw parsed s with inFlight := s.inFlight - 1 }

/-- The `setTimeout` callback armed on translation success (`App.tsx`
lines 258-260): it sets the state to IDLE unconditionally — in particular it
does not consult the speech-synthesis engine, so the reset is not gated on
speech-output completion. -/
def resetFire (s : Ctrl) : Ctrl :=
  if s.resetTimer.isSome then { s with state := AppState.IDLE, resetTimer := none }
  else s

/-- The replay button of the result view (`App.tsx` lines 421-435): visible
only when no error is shown and a translation exists and the state is
neither RECORDING nor PROCESSING; it re-issues `speakText` on the stored
translation. -/
def replayEvt (s : Ctrl) : Ctrl :=
  match s.translation with
  | some t =>
      if s.errorMsg.isSome ∨ s.state = AppState.RECORDING ∨ s.state = AppState.PROCESSING then s
      else { s with speechActive := true, lastSpeech := some (t, detectLanguageFromText t) }
  | none => s

/-- The speech-synthesis engine finishing (or being externally stopped):
playback is fire-and-forget, the controller observes nothing. -/
def speechEnd (s : Ctrl) : Ctrl :=
  { s with speechActive := false }

/-- The states from which the `ActionButton`
(`src/components/Waveform.tsx`, the `ActionButton` component) lets the user
invoke `startRecording`: the button wires `onMouseDown`/`onTouchStart` to
`onStart` and sets `disabled` exactly when `appState` is PROCESSING, so a
start can be triggered from IDLE, RECORDING (a second touch), SPEAKING
(within the 1000 ms reset window) and ERROR — every state except
PROCESSING. -/
abbrev buttonEnabled (s : Ctrl) : Prop := ¬s.state = AppState.PROCESSING

/-- The caller contract stated by the spec (section 4.1): `start()` while
the state is not IDLE is not issued (with ERROR dismissed/retried by the
user), i.e. starts come only from IDLE or ERROR.  The actual `ActionButton`
does NOT enforce this — it disables the trigger only during PROCESSING
(see `buttonEnabled`) — so this is the disciplined-caller assumption of
the spec, used only where a claim needs it and stated explicitly there. -/
abbrev uiContract (s : Ctrl) : Prop :=
  s.state = AppState.IDLE ∨ s.state = AppState.ERROR

/-- Reachable states of the session controller within one page load, for a
given start-enabledness predicate `allow`.  `media` records whether the
platform exposes `navigator.mediaDevices.getUserMedia`; this capability is
fixed for the whole page load, so it parametrises the whole relation.

A `start` event fires from any state satisfying `allow`.  A `translate`
settlement fires whenever an issued `translateAudio` call is unresolved
(`inFlight`), regardless of the current state — the promise continuation in
`handleTranslationProcess` runs no state check.  `stop`, chunk delivery,
the reset timer, replay and speech termination are environment- or
timer-driven and may occur at any time (the corresponding source functions
are total and guard themselves). -/
inductive ReachG (allow : Ctrl → Prop) (media : Bool) : Ctrl → Prop
  | init : ReachG allow media initCtrl
  | start (s : Ctrl) (now : Nat) (o : StartOutcome) (x : Ctrl) :
      ReachG allow media s → allow s →
      x ∈ startVisited media now o s → ReachG allow media x
  | chunk (s : Ctrl) (n : Nat) : ReachG allow media s → ReachG allow media (chunkEvt n s)
  | stop (s : Ctrl) (now : Nat) : ReachG allow media s → ReachG allow media (stopRec now s)
  | translate (s : Ctrl) (res : TransResult) :
      ReachG allow media s → 1 ≤ s.inFlight → ReachG allow media (translateDone res s)
  | reset (s : Ctrl) : ReachG allow media s → ReachG allow media (resetFire s)
  | replay (s : Ctrl) : ReachG allow media s → ReachG allow media (replayEvt s)
  | speechStop (s : Ctrl) : ReachG allow media s → ReachG allow media (speechEnd s)

/-- The faithful reachability relation of the program: starts are gated
exactly by the `ActionButton` enabledness (`disabled` only during
PROCESSING). -/
abbrev Reach (media : Bool) : Ctrl → Prop := ReachG buttonEnabled media

/-- Reachability under the spec section 4.1 caller contract (starts only
from IDLE or ERROR), which the actual UI does not enforce; used by the
amended C2 only. -/
abbrev ReachUI (media : Bool) : Ctrl → Prop := ReachG uiContract media

/-- The controller state right after a successful `startRecording` at time 0
from the initial state: RECORDING with the microphone held, the audio graph
open and the recorder running. -/
def sRec : Ctrl :=
  { startClear 0 initCtrl with
      micHeld := true
      graphOpen := true
      recording := true
      chunksSize := 0 }

/-- The controller state after recording 200 bytes and stopping at 2000 ms:
PROCESSING with the translation call in flight and the microphone released. -/
def sProc : Ctrl := stopRec 2000 (chunkEvt 200 sRec)

/-- The controller state after a successful translation of the 2000 ms
session: SPEAKING with the translated text stored and speech requested. -/
def sSpeak : Ctrl := translateDone (TransResult.ok "你好") sProc

/-- The controller state after recording only 50 bytes and stopping at
1500 ms: the EmptyPayload condition fires. -/
def sShortBytes : Ctrl := stopRec 1500 (chunkEvt 50 sRec)

/-- The controller state when `startRecording` acquires the microphone and
builds the audio graph but the `MediaRecorder` construction throws: the
catch block surfaces ERROR without stopping the stream tracks or closing
the audio context. -/
def sLeak : Ctrl :=
  { startClear 0 initCtrl with
      micHeld := true
      graphOpen := true
      state := AppState.ERROR
      errorMsg := some (gumErrMsg "NotSupportedError" "Failed to construct MediaRecorder") }

/-- Classifier following the words of the specification sentence for the
language heuristic: returns `zh` exactly when the text contains a code point
of the CJK Unified Ideographs block (U+4E00 to U+9FFF).  Stated only to be
compared against `detectLanguageFromText`, which is translated from the
source and stops at U+9FA5. -/
def specClassifyCJKBlock (text : String) : Lang :=
  if text.data.any (fun c => decide (0x4E00 ≤ c.toNat ∧ c.toNat ≤ 0x9FFF)) then Lang.zh
  else Lang.en

/-- The ActionButton permits a start during the SPEAKING window; if the
permission prompt then rejects (`NotAllowedError`), the catch block of
`startRecording` surfaces ERROR while the 1000 ms reset timer armed by the
previous translation success is still pending (nothing cancels it). -/
def sDenySpeak : Ctrl :=
  { startClear 3000 sSpeak with
      state := AppState.ERROR
      errorMsg := some (gumErrMsg "NotAllowedError" "Permission denied") }

/-- The stale reset timer then fires: its callback runs only
`setAppState(IDLE)`, leaving the error message in place, so the UI shows the
error banner while the state is IDLE.  Timeline in real time: the
translation success at time T arms the timer; the user presses at
T plus 300 ms, the denial lands at T plus 400 ms, the timer fires at
T plus 1000 ms. -/
def sStaleIdle : Ctrl := resetFire sDenySpeak

/-- A 401 response body message that is itself a JSON object text.  The
service layer still throws the `API_KEY_INVALID`-prefixed error, but the
message cleanup in the App catch block finds a brace, parses the substring
from it and replaces the raw error with the inner `error.message`, losing
every credential marker. -/
def mBad401 : String := "\x7b\"error\":\x7b\"message\":\"Request failed\"\x7d\x7d"

/-- The faithful-model invariant: facts that hold at every state reachable
under any start-enabledness predicate, in particular under the faithful
`buttonEnabled` gating.  An active recorder implies a clear short flag (the
flag is reset on every start, and the only place that sets it also stops the
recorder), and on a platform without capture capability no session ever
records, translates, speaks or arms a timer. -/
def Inv2 (media : Bool) (s : Ctrl) : Prop :=
  (s.recording = true → s.isShort = false) ∧
  (media = false → s.recording = false ∧ s.translation = none ∧ s.spoke = false ∧
    s.speechActive = false ∧ s.inFlight = 0 ∧ s.resetTimer = none ∧
    (s.state = AppState.IDLE ∨ s.state = AppState.ERROR))

theorem inv2_initCtrl (media : Bool) : Inv2 media initCtrl := by
  unfold Inv2 initCtrl
  exact ⟨by simp, fun _ => by simp⟩

theorem inv2_startVisited (media : Bool) (now : Nat) (o : StartOutcome) (s x : Ctrl)
    (h : Inv2 media s) (hx : x ∈ startVisited media now o s) : Inv2 media x := by
  obtain ⟨h1, h2⟩ := h
  unfold startVisited at hx
  cases media with
  | false =>
    simp only [Bool.false_eq_true, if_false, List.mem_singleton] at hx
    subst hx
    refine ⟨h1, fun hm => ?_⟩
    exact ⟨(h2 hm).1, (h2 hm).2.1, (h2 hm).2.2.1, (h2 hm).2.2.2.1,
      (h2 hm).2.2.2.2.1, (h2 hm).2.2.2.2.2.1, Or.inr rfl⟩
  | true =>
    cases o with
    | gumDenied name msg =>
      simp only [eq_self_iff_true, if_true, List.mem_cons, List.not_mem_nil,
        or_false] at hx
      cases hx with
      | inl h9 =>
        rw [h9]
        exact ⟨fun _ => rfl, fun hm => absurd hm (by simp)⟩
      | inr h9 =>
        rw [h9]
        exact ⟨fun _ => rfl, fun hm => absurd hm (by simp)⟩
    | postAcquireFail name msg =>
      simp only [eq_self_iff_true, if_true, List.mem_cons, List.not_mem_nil,
        or_false] at hx
      cases hx with
      | inl h9 =>
        rw [h9]
        exact ⟨fun _ => rfl, fun hm => absurd hm (by simp)⟩
      | inr h9 =>
        rw [h9]
        exact ⟨fun _ => rfl, fun hm => absurd hm (by simp)⟩
    | ok =>
      simp only [eq_self_iff_true, if_true, List.mem_cons, List.not_mem_nil,
        or_false] at hx
      cases hx with
      | inl h9 =>
        rw [h9]
        exact ⟨fun _ => rfl, fun hm => absurd hm (by simp)⟩
      | inr h9 =>
        rw [h9]
        exact ⟨fun _ => rfl, fun hm => absurd hm (by simp)⟩

theorem inv2_chunkEvt (media : Bool) (n : Nat) (s : Ctrl) (h : Inv2 media s) :
    Inv2 media (chunkEvt n s) := by
  obtain ⟨h1, h2⟩ := h
  unfold chunkEvt
  by_cases hr : s.recording = true
  · rw [if_pos hr]
    exact ⟨h1, fun hm => absurd (h2 hm).1 (by simp [hr])⟩
  · rw [if_neg hr]
    exact ⟨h1, h2⟩

theorem inv2_stopRec (media : Bool) (now : Nat) (s : Ctrl) (h : Inv2 media s) :
    Inv2 media (stopRec now s) := by
  obtain ⟨h1, h2⟩ := h
  unfold stopRec
  by_cases hr : s.recording = true
  · rw [if_pos hr]
    by_cases hshort : shortAfter now s = true
    · rw [if_pos hshort]
      exact ⟨fun hx => absurd hx (by simp [stopCleanup]),
        fun hm => absurd (h2 hm).1 (by simp [hr])⟩
    · rw [if_neg hshort]
      by_cases hsz : s.chunksSize < 100
      · rw [if_pos hsz]
        exact ⟨fun hx => absurd hx (by simp [applyCatch, stopCleanup]),
          fun hm => absurd (h2 hm).1 (by simp [hr])⟩
      · rw [if_neg hsz]
        exact ⟨fun hx => absurd hx (by simp [stopCleanup]),
          fun hm => absurd (h2 hm).1 (by simp [hr])⟩
  · rw [if_neg hr]
    exact ⟨fun hx => absurd hx hr, h2⟩

theorem inv2_translateDone (media : Bool) (res : TransResult) (s : Ctrl)
    (h : Inv2 media s) (hin : 1 ≤ s.inFlight) : Inv2 media (translateDone res s) := by
  obtain ⟨h1, h2⟩ := h
  cases res with
  | ok t =>
    unfold translateDone
    exact ⟨h1, fun hm => absurd (h2 hm).2.2.2.2.1 (by omega)⟩
  | err raw parsed =>
    unfold translateDone applyCatch
    exact ⟨h1, fun hm => absurd (h2 hm).2.2.2.2.1 (by omega)⟩

theorem inv2_resetFire (media : Bool) (s : Ctrl) (h : Inv2 media s) :
    Inv2 media (resetFire s) := by
  obtain ⟨h1, h2⟩ := h
  unfold resetFire
  by_cases ht : s.resetTimer.isSome = true
  · rw [if_pos ht]
    exact ⟨h1, fun hm => by rw [(h2 hm).2.2.2.2.2.1] at ht; simp at ht⟩
  · rw [if_neg ht]
    exact ⟨h1, h2⟩

theorem inv2_replayEvt (media : Bool) (s : Ctrl) (h : Inv2 media s) :
    Inv2 media (replayEvt s) := by
  obtain ⟨h1, h2⟩ := h
  unfold replayEvt
  cases htr : s.translation with
  | none => exact ⟨h1, h2⟩
  | some t =>
    dsimp only
    by_cases hc : s.errorMsg.isSome = true ∨ s.state = AppState.RECORDING ∨
        s.state = AppState.PROCESSING
    · rw [if_pos hc]
      exact ⟨h1, h2⟩
    · rw [if_neg hc]
      exact ⟨h1, fun hm => absurd (h2 hm).2.1 (by simp [htr])⟩

theorem inv2_speechEnd (media : Bool) (s : Ctrl) (h : Inv2 media s) :
    Inv2 media (speechEnd s) := by
  obtain ⟨h1, h2⟩ := h
  exact ⟨h1, fun hm => ⟨(h2 hm).1, (h2 hm).2.1, (h2 hm).2.2.1, rfl,
    (h2 hm).2.2.2.2.1, (h2 hm).2.2.2.2.2.1, (h2 hm).2.2.2.2.2.2⟩⟩

/-- Every state reachable under any start-enabledness gating — in
particular the faithful `Reach` — satisfies `Inv2`. -/
theorem inv2_reach {allow : Ctrl → Prop} {media : Bool} {s : Ctrl}
    (h : ReachG allow media s) : Inv2 media s := by
  induction h with
  | init => exact inv2_initCtrl media
  | start s now o x _ _ hx ih => exact inv2_startVisited media now o s x ih hx
  | chunk s n _ ih => exact inv2_chunkEvt media n s ih
  | stop s now _ ih => exact inv2_stopRec media now s ih
  | translate s res _ hin ih => exact inv2_translateDone media res s ih hin
  | reset s _ ih => exact inv2_resetFire media s ih
  | replay s _ ih => exact inv2_replayEvt media s ih
  | speechStop s _ ih => exact inv2_speechEnd media s ih

/-- The disciplined-caller invariant, proved to hold at every state
reachable under the spec section 4.1 contract (`uiContract` gating:
starts only from IDLE or ERROR; see `invS_reachUI`).  It does NOT hold
under the faithful `buttonEnabled` gating — see `c2_counterexample`.
Besides the specified relation between `translation`, `errorMsg` and
`state` it carries the auxiliary facts the induction needs: the reset timer
is only armed while SPEAKING, an active recorder implies the RECORDING
state with a clear short flag, exactly the PROCESSING state has an
unresolved call in flight, and on a platform without capture capability no
session ever records, translates or speaks. -/
def InvS (media : Bool) (s : Ctrl) : Prop :=
  (s.errorMsg.isSome = true ↔ s.state = AppState.ERROR) ∧
  (s.translation.isSome = true ↔
    (s.state = AppState.SPEAKING ∨ (s.state = AppState.IDLE ∧ s.spoke = true))) ∧
  (s.state = AppState.SPEAKING → s.spoke = true) ∧
  (s.resetTimer.isSome = true → s.state = AppState.SPEAKING) ∧
  ((s.state = AppState.RECORDING ∨ s.state = AppState.PROCESSING) → s.spoke = false) ∧
  (s.recording = true → s.state = AppState.RECORDING) ∧
  (s.recording = true → s.isShort = false) ∧
  (media = false → s.recording = false ∧ s.translation = none ∧ s.spoke = false ∧
    s.speechActive = false ∧ (s.state = AppState.IDLE ∨ s.state = AppState.ERROR)) ∧
  (s.inFlight = if s.state = AppState.PROCESSING then 1 else 0)

theorem invS_initCtrl (media : Bool) : InvS media initCtrl := by
  unfold InvS initCtrl
  refine ⟨by simp, by simp, by simp, by simp, by simp, by simp, by simp,
    fun _ => by simp, by simp⟩

theorem invS_chunkEvt (media : Bool) (n : Nat) (s : Ctrl) (h : InvS media s) :
    InvS media (chunkEvt n s) := by
  unfold chunkEvt
  split
  · exact h
  · exact h

theorem invS_speechEnd (media : Bool) (s : Ctrl) (h : InvS media s) :
    InvS media (speechEnd s) := by
  obtain ⟨h1, h2, h3, h4, h5, h6, h7, h8, h9⟩ := h
  exact ⟨h1, h2, h3, h4, h5, h6, h7, fun hm =>
    ⟨(h8 hm).1, (h8 hm).2.1, (h8 hm).2.2.1, rfl, (h8 hm).2.2.2.2⟩, h9⟩

theorem invS_replayEvt (media : Bool) (s : Ctrl) (h : InvS media s) :
    InvS media (replayEvt s) := by
  obtain ⟨h1, h2, h3, h4, h5, h6, h7, h8, h9⟩ := h
  unfold replayEvt
  cases ht : s.translation with
  | none => exact ⟨h1, h2, h3, h4, h5, h6, h7, h8, h9⟩
  | some t =>
    dsimp only
    by_cases hc : s.errorMsg.isSome = true ∨ s.state = AppState.RECORDING ∨
        s.state = AppState.PROCESSING
    · rw [if_pos hc]
      exact ⟨h1, h2, h3, h4, h5, h6, h7, h8, h9⟩
    · rw [if_neg hc]
      refine ⟨h1, ?_, h3, h4, h5, h6, h7, fun hm => ?_, h9⟩
      · simpa [ht] using h2
      · exact absurd ((h8 hm).2.1) (by simp [ht])

theorem invS_resetFire (media : Bool) (s : Ctrl) (h : InvS media s) :
    InvS media (resetFire s) := by
  obtain ⟨h1, h2, h3, h4, h5, h6, h7, h8, h9⟩ := h
  unfold resetFire
  split
  · rename_i htimer
    have hsp : s.state = AppState.SPEAKING := h4 htimer
    have hspoke : s.spoke = true := h3 hsp
    have herr : s.errorMsg.isSome = false := by
      cases he : s.errorMsg.isSome
      · rfl
      · exact absurd (h1.mp he) (by simp [hsp])
    have htr : s.translation.isSome = true := h2.mpr (Or.inl hsp)
    have hrec : s.recording = false := by
      cases hr : s.recording
      · rfl
      · exact absurd (h6 hr) (by simp [hsp])
    refine ⟨?_, ?_, ?_, ?_, ?_, ?_, ?_, fun hm => ?_, ?_⟩
    · simp [herr]
    · simp [htr, hspoke]
    · simp
    · simp
    · simp
    · simp [hrec]
    · exact h7
    · exact absurd (h8 hm).2.2.2.2 (by simp [hsp])
    · simp [h9, hsp]
  · exact ⟨h1, h2, h3, h4, h5, h6, h7, h8, h9⟩

theorem invS_translateDone (media : Bool) (res : TransResult) (s : Ctrl)
    (h : InvS media s) (hin : 1 ≤ s.inFlight) :
    InvS media (translateDone res s) := by
  obtain ⟨h1, h2, h3, h4, h5, h6, h7, h8, h9⟩ := h
  have hp : s.state = AppState.PROCESSING := by
    by_cases hps : s.state = AppState.PROCESSING
    · exact hps
    · rw [if_neg hps] at h9
      omega
  have hfl : s.inFlight = 1 := by rw [h9, if_pos hp]
  have herr : s.errorMsg.isSome = false := by
    cases he : s.errorMsg.isSome
    · rfl
    · exact absurd (h1.mp he) (by simp [hp])
  have htr : s.translation.isSome = false := by
    cases he : s.translation.isSome
    · rfl
    · rcases h2.mp he with hx | hx
      · exact absurd hx (by simp [hp])
      · exact absurd hx.1 (by simp [hp])
  have hrec : s.recording = false := by
    cases hr : s.recording
    · rfl
    · exact absurd (h6 hr) (by simp [hp])
  have htim : s.resetTimer.isSome = false := by
    cases htm : s.resetTimer.isSome
    · rfl
    · exact absurd (h4 htm) (by simp [hp])
  cases res with
  | ok t =>
    unfold translateDone
    refine ⟨?_, ?_, ?_, ?_, ?_, ?_, ?_, fun hm => ?_, ?_⟩
    · simp [herr]
    · simp
    · simp
    · simp
    · simp
    · simp [hrec]
    · exact h7
    · exact absurd (h8 hm).2.2.2.2 (by simp [hp])
    · simp [hfl]
  | err raw parsed =>
    unfold translateDone applyCatch
    refine ⟨?_, ?_, ?_, ?_, ?_, ?_, ?_, fun hm => ?_, ?_⟩
    · simp
    · simp [htr]
    · simp
    · simp [htim]
    · simp
    · simp [hrec]
    · exact h7
    · exact absurd (h8 hm).2.2.2.2 (by simp [hp])
    · simp [hfl]

theorem invS_stopRec (media : Bool) (now : Nat) (s : Ctrl) (h : InvS media s) :
    InvS media (stopRec now s) := by
  obtain ⟨h1, h2, h3, h4, h5, h6, h7, h8, h9⟩ := h
  unfold stopRec
  by_cases hr : s.recording = true
  · rw [if_pos hr]
    have hst : s.state = AppState.RECORDING := h6 hr
    have hspoke : s.spoke = false := h5 (Or.inl hst)
    have hfl0 : s.inFlight = 0 := by rw [h9, if_neg (by simp [hst])]
    have herr : s.errorMsg.isSome = false := by
      cases he : s.errorMsg.isSome
      · rfl
      · exact absurd (h1.mp he) (by simp [hst])
    have htrn : s.translation = none := by
      cases he : s.translation
      · rfl
      · rcases h2.mp (by simp [he]) with hx | hx
        · exact absurd hx (by simp [hst])
        · exact absurd hx.1 (by simp [hst])
    have htimn : s.resetTimer = none := by
      cases htm : s.resetTimer
      · rfl
      · exact absurd (h4 (by simp [htm])) (by simp [hst])
    by_cases hshort : shortAfter now s = true
    · rw [if_pos hshort]
      refine ⟨?_, ?_, ?_, ?_, ?_, ?_, ?_, fun hm => ?_, ?_⟩
      · simp
      · simp [stopCleanup, hspoke]
      · simp
      · simp [stopCleanup, htimn]
      · simp
      · simp [stopCleanup]
      · simp [stopCleanup]
      · exact absurd (h8 hm).1 (by simp [hr])
      · simp [stopCleanup, hfl0]
    · rw [if_neg hshort]
      by_cases hsz : s.chunksSize < 100
      · rw [if_pos hsz]
        unfold applyCatch
        refine ⟨?_, ?_, ?_, ?_, ?_, ?_, ?_, fun hm => ?_, ?_⟩
        · simp
        · simp [stopCleanup, htrn]
        · simp
        · simp [stopCleanup, htimn]
        · simp
        · simp [stopCleanup]
        · simp [stopCleanup]
        · exact absurd (h8 hm).1 (by simp [hr])
        · simp [stopCleanup, hfl0]
      · rw [if_neg hsz]
        refine ⟨?_, ?_, ?_, ?_, ?_, ?_, ?_, fun hm => ?_, ?_⟩
        · simp [stopCleanup, herr]
        · simp [stopCleanup, htrn]
        · simp
        · simp [stopCleanup, htimn]
        · simp [stopCleanup, hspoke]
        · simp [stopCleanup]
        · simp [stopCleanup]
        · exact absurd (h8 hm).1 (by simp [hr])
        · simp [stopCleanup, hfl0]
  · rw [if_neg hr]
    refine ⟨h1, h2, h3, h4, h5, h6, ?_, h8, h9⟩
    intro hx
    exact absurd hx hr

theorem invS_startVisited (media : Bool) (now : Nat) (o : StartOutcome) (s x : Ctrl)
    (h : InvS media s) (hgate : s.state = AppState.IDLE ∨ s.state = AppState.ERROR)
    (hx : x ∈ startVisited media now o s) : InvS media x := by
  obtain ⟨h1, h2, h3, h4, h5, h6, h7, h8, h9⟩ := h
  have hrec : s.recording = false := by
    cases hr : s.recording
    · rfl
    · rcases hgate with hg | hg <;> exact absurd (h6 hr) (by simp [hg])
  have htimn : s.resetTimer = none := by
    cases htm : s.resetTimer
    · rfl
    · rcases hgate with hg | hg <;> exact absurd (h4 (by simp [htm])) (by simp [hg])
  have hfl0 : s.inFlight = 0 := by
    rcases hgate with hg | hg <;> rw [h9, if_neg (by simp [hg])]
  unfold startVisited at hx
  cases media with
  | false =>
    simp only [Bool.false_eq_true, if_false, List.mem_singleton] at hx
    subst hx
    refine ⟨?_, ?_, ?_, ?_, ?_, ?_, ?_, fun _ => ?_, ?_⟩
    · simp
    · simp [(h8 rfl).2.1]
    · simp
    · simp [htimn]
    · simp
    · simp [(h8 rfl).1]
    · exact h7
    · exact ⟨(h8 rfl).1, (h8 rfl).2.1, (h8 rfl).2.2.1, (h8 rfl).2.2.2.1, Or.inr rfl⟩
    · simp [hfl0]
  | true =>
    cases o with
    | gumDenied name msg =>
      simp only [eq_self_iff_true, if_true, List.mem_cons, List.not_mem_nil,
        or_false] at hx
      cases hx with
      | inl h19 =>
        rw [h19]
        refine ⟨?_, ?_, ?_, ?_, ?_, ?_, ?_, fun hm => absurd hm (by simp), ?_⟩ <;>
          simp [startClear, htimn, hrec, hfl0]
      | inr h19 =>
        rw [h19]
        refine ⟨?_, ?_, ?_, ?_, ?_, ?_, ?_, fun hm => absurd hm (by simp), ?_⟩ <;>
          simp [startClear, htimn, hrec, hfl0]
    | postAcquireFail name msg =>
      simp only [eq_self_iff_true, if_true, List.mem_cons, List.not_mem_nil,
        or_false] at hx
      cases hx with
      | inl h19 =>
        rw [h19]
        refine ⟨?_, ?_, ?_, ?_, ?_, ?_, ?_, fun hm => absurd hm (by simp), ?_⟩ <;>
          simp [startClear, htimn, hrec, hfl0]
      | inr h19 =>
        rw [h19]
        refine ⟨?_, ?_, ?_, ?_, ?_, ?_, ?_, fun hm => absurd hm (by simp), ?_⟩ <;>
          simp [startClear, htimn, hrec, hfl0]
    | ok =>
      simp only [eq_self_iff_true, if_true, List.mem_cons, List.not_mem_nil,
        or_false] at hx
      cases hx with
      | inl h19 =>
        rw [h19]
        refine ⟨?_, ?_, ?_, ?_, ?_, ?_, ?_, fun hm => absurd hm (by simp), ?_⟩ <;>
          simp [startClear, htimn, hrec, hfl0]
      | inr h19 =>
        rw [h19]
        refine ⟨?_, ?_, ?_, ?_, ?_, ?_, ?_, fun hm => absurd hm (by simp), ?_⟩ <;>
          simp [startClear, htimn, hfl0]

/-- Every state reachable under the spec section 4.1 caller contract
satisfies the disciplined invariant `InvS`. -/
theorem invS_reachUI {media : Bool} {s : Ctrl} (h : ReachUI media s) : InvS media s := by
  induction h with
  | init => exact invS_initCtrl media
  | start s now o x _ hgate hx ih => exact invS_startVisited media now o s x ih hgate hx
  | chunk s n _ ih => exact invS_chunkEvt media n s ih
  | stop s now _ ih => exact invS_stopRec media now s ih
  | translate s res _ hin ih => exact invS_translateDone media res s ih hin
  | reset s _ ih => exact invS_resetFire media s ih
  | replay s _ ih => exact invS_replayEvt media s ih
  | speechStop s _ ih => exact invS_speechEnd media s ih


theorem leadsWith_append (p r : List Char) : leadsWith p (p ++ r) = true := by
  induction p with
  | nil => rfl
  | cons c cs ih => simp [leadsWith, ih]

theorem hasSub_of_leadsWith (p l : List Char) (h : leadsWith p l = true) :
    hasSub p l = true := by
  cases l with
  | nil => simpa [hasSub] using h
  | cons c cs => simp [hasSub, h]

theorem containsSub_append_self (p x : String) : containsSub (p ++ x) p = true := by
  have : hasSub p.data (p.data ++ x.data) = true :=
    hasSub_of_leadsWith p.data (p.data ++ x.data) (leadsWith_append p.data x.data)
  exact this

/-- C1: For every recording session stopped with an elapsed duration below
1000 ms, `stopRecording` discards the captured audio and the session returns
to IDLE with `translatedText` unset and `error` unset, the microphone
released, and no translation call issued (the `translateAudio` invocation
counter is unchanged). -/
theorem c1_short_recording_silent_discard (media : Bool) (s : Ctrl) (now : Nat)
    (_hreach : Reach media s) (hrec : s.recording = true)
    (hdur : now - s.startTime < 1000) :
    (stopRec now s).state = AppState.IDLE ∧
    (stopRec now s).translation = none ∧
    (stopRec now s).errorMsg = none ∧
    (stopRec now s).translationAttempts = s.translationAttempts ∧
    (stopRec now s).micHeld = false ∧
    (stopRec now s).recording = false := by
  have hshort : shortAfter now s = true := by
    unfold shortAfter
    simp [hdur]
  unfold stopRec
  rw [if_pos hrec, if_pos hshort]
  exact ⟨rfl, rfl, rfl, rfl, rfl, rfl⟩

/-- Witness for C1: the concrete 500 ms session. -/
theorem c1_witness :
    Reach true sRec ∧ sRec.recording = true ∧ 500 - sRec.startTime < 1000 ∧
    ((stopRec 500 sRec).state = AppState.IDLE ∧
      (stopRec 500 sRec).translation = none ∧
      (stopRec 500 sRec).errorMsg = none ∧
      (stopRec 500 sRec).translationAttempts = sRec.translationAttempts ∧
      (stopRec 500 sRec).micHeld = false ∧
      (stopRec 500 sRec).recording = false) := by
  have hr : Reach true sRec :=
    ReachG.start initCtrl 0 StartOutcome.ok sRec ReachG.init (by decide) (by decide)
  exact ⟨hr, by decide, by decide,
    c1_short_recording_silent_discard true sRec 500 hr (by decide) (by decide)⟩

/-- Counterexample for C2 as stated: the faithful model — starts gated only
by the real ActionButton, which stays enabled during SPEAKING — reaches a
state whose `state` is IDLE while `errorMsg` is still set.  The trace: a
successful session arms the 1000 ms reset timer at SPEAKING; the user
presses again inside that window; `getUserMedia` is denied, so the catch
block stores the error and enters ERROR; the stale timer then fires and its
callback runs only `setAppState(IDLE)`, leaving the error message set.
`error` is set without the state being ERROR, refuting the claimed
invariant for the program as built. -/
theorem c2_counterexample :
    Reach true sStaleIdle ∧ sStaleIdle.state = AppState.IDLE ∧
    sStaleIdle.errorMsg.isSome = true ∧
    ¬(sStaleIdle.errorMsg.isSome = true ↔ sStaleIdle.state = AppState.ERROR) := by
  refine ⟨?_, by decide, by decide, by decide⟩
  exact ReachG.reset sDenySpeak
    (ReachG.start sSpeak 3000
      (StartOutcome.gumDenied "NotAllowedError" "Permission denied") sDenySpeak
      (ReachG.translate sProc (TransResult.ok "你好")
        (ReachG.stop (chunkEvt 200 sRec) 2000
          (ReachG.chunk sRec 200
            (ReachG.start initCtrl 0 StartOutcome.ok sRec ReachG.init (by decide)
              (by decide))))
        (by decide))
      (by decide) (by decide))

/-- C2 amended: the invariant holds in every state reachable when the
caller honors the spec section 4.1 concurrency contract — `start()` only
invoked from IDLE or ERROR — which the actual ActionButton does not enforce
(it disables the trigger only during PROCESSING, see `c2_counterexample`).
Under that contract, `translatedText` is set if and only if the state is
SPEAKING or is the IDLE state later in a session whose translation
succeeded (the ghost flag `spoke`); `error` is set if and only if the state
is ERROR; and whenever the state is SPEAKING or ERROR exactly one of the
two is set, never both. -/
theorem c2_amended_invariant_under_ui_contract (media : Bool) (s : Ctrl)
    (hreach : ReachUI media s) :
    (s.errorMsg.isSome = true ↔ s.state = AppState.ERROR) ∧
    (s.translation.isSome = true ↔
      (s.state = AppState.SPEAKING ∨ (s.state = AppState.IDLE ∧ s.spoke = true))) ∧
    ((s.state = AppState.SPEAKING ∨ s.state = AppState.ERROR) →
      ((s.translation.isSome = true ∨ s.errorMsg.isSome = true) ∧
        ¬(s.translation.isSome = true ∧ s.errorMsg.isSome = true))) := by
  obtain ⟨h1, h2, h3, h4, h5, h6, h7, h8, h9⟩ := invS_reachUI hreach
  refine ⟨h1, h2, fun hse => ?_⟩
  rcases hse with hs | hs
  · refine ⟨Or.inl (h2.mpr (Or.inl hs)), fun hc => ?_⟩
    exact absurd (h1.mp hc.2) (by simp [hs])
  · refine ⟨Or.inr (h1.mpr hs), fun hc => ?_⟩
    rcases h2.mp hc.1 with hx | hx
    · exact absurd hx (by simp [hs])
    · exact absurd hx.1 (by simp [hs])

/-- Witness for the amended C2: the invariant evaluated at the SPEAKING
state of the concrete successful session, reachable under the contract. -/
theorem c2_witness :
    ReachUI true sSpeak ∧
    ((sSpeak.errorMsg.isSome = true ↔ sSpeak.state = AppState.ERROR) ∧
      (sSpeak.translation.isSome = true ↔
        (sSpeak.state = AppState.SPEAKING ∨
          (sSpeak.state = AppState.IDLE ∧ sSpeak.spoke = true))) ∧
      ((sSpeak.state = AppState.SPEAKING ∨ sSpeak.state = AppState.ERROR) →
        ((sSpeak.translation.isSome = true ∨ sSpeak.errorMsg.isSome = true) ∧
          ¬(sSpeak.translation.isSome = true ∧ sSpeak.errorMsg.isSome = true)))) := by
  have hr : ReachUI true sSpeak :=
    ReachG.translate sProc (TransResult.ok "你好")
      (ReachG.stop (chunkEvt 200 sRec) 2000
        (ReachG.chunk sRec 200
          (ReachG.start initCtrl 0 StartOutcome.ok sRec ReachG.init (by decide) (by decide))))
      (by decide)
  exact ⟨hr, c2_amended_invariant_under_ui_contract true sSpeak hr⟩

/-- C3: For every recording of at least 1000 ms whose accumulated payload is
below 100 bytes, stopping raises the EmptyPayload error `录音数据为空`
synchronously (no `translateAudio` call is issued) and the session reaches
ERROR with that message set. -/
theorem c3_empty_payload_reaches_error (media : Bool) (s : Ctrl) (now : Nat)
    (hreach : Reach media s) (hrec : s.recording = true)
    (hdur : 1000 ≤ now - s.startTime) (hsz : s.chunksSize < 100) :
    (stopRec now s).state = AppState.ERROR ∧
    (stopRec now s).errorMsg = some emptyPayloadMsg ∧
    (stopRec now s).translationAttempts = s.translationAttempts ∧
    (stopRec now s).micHeld = false := by
  have hsh : s.isShort = false := (inv2_reach hreach).1 hrec
  have hshort : ¬shortAfter now s = true := by
    unfold shortAfter
    simp [hsh]
    omega
  unfold stopRec
  rw [if_pos hrec, if_neg hshort, if_pos hsz]
  refine ⟨rfl, ?_, rfl, rfl⟩
  exact congrArg some (by decide :
    (classifyError emptyPayloadMsg none).display = emptyPayloadMsg)

/-- Witness for C3: the concrete 1500 ms session with a 50-byte payload. -/
theorem c3_witness :
    Reach true (chunkEvt 50 sRec) ∧ (chunkEvt 50 sRec).recording = true ∧
    1000 ≤ 1500 - (chunkEvt 50 sRec).startTime ∧ (chunkEvt 50 sRec).chunksSize < 100 ∧
    ((stopRec 1500 (chunkEvt 50 sRec)).state = AppState.ERROR ∧
      (stopRec 1500 (chunkEvt 50 sRec)).errorMsg = some emptyPayloadMsg ∧
      (stopRec 1500 (chunkEvt 50 sRec)).translationAttempts =
        (chunkEvt 50 sRec).translationAttempts ∧
      (stopRec 1500 (chunkEvt 50 sRec)).micHeld = false) := by
  have hr : Reach true (chunkEvt 50 sRec) :=
    ReachG.chunk sRec 50
      (ReachG.start initCtrl 0 StartOutcome.ok sRec ReachG.init (by decide) (by decide))
  exact ⟨hr, by decide, by decide, by decide,
    c3_empty_payload_reaches_error true (chunkEvt 50 sRec) 1500 hr (by decide) (by decide)
      (by decide)⟩

/-- Counterexample for C4 as stated: in the reachable session where the
EmptyPayload condition occurs (1500 ms recording, 50-byte payload), the code
does not return silently to IDLE — it enters ERROR and shows the message
`录音数据为空` to the user. -/
theorem c4_counterexample :
    Reach true sShortBytes ∧ sShortBytes.state = AppState.ERROR ∧
    sShortBytes.errorMsg = some emptyPayloadMsg ∧
    ¬(sShortBytes.state = AppState.IDLE ∧ sShortBytes.errorMsg = none) := by
  refine ⟨?_, by decide, by decide, by decide⟩
  exact ReachG.stop (chunkEvt 50 sRec) 1500
    (ReachG.chunk sRec 50
      (ReachG.start initCtrl 0 StartOutcome.ok sRec ReachG.init (by decide) (by decide)))

/-- C4 amended: for every session in which the EmptyPayload condition occurs
(stop after at least 1000 ms with an accumulated payload below 100 bytes),
the session transitions to ERROR with the message `录音数据为空` shown as an
error — it is not treated as a silent no-op returning to IDLE. -/
theorem c4_amended_empty_payload_shows_error (media : Bool) (s : Ctrl) (now : Nat)
    (hreach : Reach media s) (hrec : s.recording = true)
    (hdur : 1000 ≤ now - s.startTime) (hsz : s.chunksSize < 100) :
    (stopRec now s).state = AppState.ERROR ∧
    (stopRec now s).errorMsg.isSome = true ∧
    (stopRec now s).state ≠ AppState.IDLE := by
  have hsh : s.isShort = false := (inv2_reach hreach).1 hrec
  have hshort : ¬shortAfter now s = true := by
    unfold shortAfter
    simp [hsh]
    omega
  unfold stopRec
  rw [if_pos hrec, if_neg hshort, if_pos hsz]
  exact ⟨rfl, rfl, fun hc => AppState.noConfusion hc⟩

/-- Witness for the amended C4: the concrete degenerate session. -/
theorem c4_witness :
    Reach true (chunkEvt 50 sRec) ∧ (chunkEvt 50 sRec).recording = true ∧
    1000 ≤ 1500 - (chunkEvt 50 sRec).startTime ∧ (chunkEvt 50 sRec).chunksSize < 100 ∧
    ((stopRec 1500 (chunkEvt 50 sRec)).state = AppState.ERROR ∧
      (stopRec 1500 (chunkEvt 50 sRec)).errorMsg.isSome = true ∧
      (stopRec 1500 (chunkEvt 50 sRec)).state ≠ AppState.IDLE) := by
  have hr : Reach true (chunkEvt 50 sRec) :=
    ReachG.chunk sRec 50
      (ReachG.start initCtrl 0 StartOutcome.ok sRec ReachG.init (by decide) (by decide))
  exact ⟨hr, by decide, by decide, by decide,
    c4_amended_empty_payload_shows_error true (chunkEvt 50 sRec) 1500 hr (by decide)
      (by decide) (by decide)⟩

/-- Counterexample for the block-equivalence part of C5: the character
U+9FA6 lies in the CJK Unified Ideographs block (U+4E00 to U+9FFF), so the
spec-worded classifier returns `zh` on it, but `detectLanguageFromText`
stops at U+9FA5 and returns `en`: the two classifiers differ. -/
theorem c5_counterexample :
    detectLanguageFromText (String.mk [Char.ofNat 0x9FA6]) = Lang.en ∧
    specClassifyCJKBlock (String.mk [Char.ofNat 0x9FA6]) = Lang.zh ∧
    detectLanguageFromText (String.mk [Char.ofNat 0x9FA6]) ≠
      specClassifyCJKBlock (String.mk [Char.ofNat 0x9FA6]) := by
  exact ⟨by decide, by decide, by decide⟩

/-- C5 amended: `detectLanguageFromText` returns `zh` exactly when the text
contains a character in U+4E00 to U+9FA5, returns `en` otherwise, and in
particular returns `en` on the empty string.  (The matched range is a proper
subrange of the CJK Unified Ideographs block, which extends to U+9FFF.) -/
theorem c5_amended_classify_range (text : String) :
    (detectLanguageFromText text = Lang.zh ↔
      ∃ c ∈ text.data, 0x4E00 ≤ c.toNat ∧ c.toNat ≤ 0x9FA5) ∧
    (detectLanguageFromText text = Lang.en ↔
      ¬∃ c ∈ text.data, 0x4E00 ≤ c.toNat ∧ c.toNat ≤ 0x9FA5) ∧
    detectLanguageFromText "" = Lang.en := by
  have hiff : text.data.any isChineseChar = true ↔
      ∃ c ∈ text.data, 0x4E00 ≤ c.toNat ∧ c.toNat ≤ 0x9FA5 := by
    simp [List.any_eq_true, isChineseChar]
  refine ⟨?_, ?_, by decide⟩
  · unfold detectLanguageFromText
    by_cases h : text.data.any isChineseChar = true
    · rw [if_pos h]
      exact iff_of_true rfl (hiff.mp h)
    · rw [if_neg h]
      exact iff_of_false (by decide) (fun hex => h (hiff.mpr hex))
  · unfold detectLanguageFromText
    by_cases h : text.data.any isChineseChar = true
    · rw [if_pos h]
      exact iff_of_false (by decide) (fun hne => hne (hiff.mp h))
    · rw [if_neg h]
      exact iff_of_true rfl (fun hex => h (hiff.mpr hex))

/-- Counterexample for C6 as stated: a 401 whose body message is itself a
JSON object text (`mBad401`).  `translateAudio` still throws the
`API_KEY_INVALID`-classed error, but the App catch block sees a brace in
the raw message, substitutes the parsed inner `error.message` for it
(the JSON.parse result is passed as the oracle argument
`some "Request failed"`, which is what JSON.parse yields on the
brace-substring of this message), and the credential markers are lost: the
session reaches ERROR with the plain message `Request failed`, `hasApiKey`
is NOT cleared, and nothing in the display indicates an invalid credential.
The unrestricted claim is therefore false in the code. -/
theorem c6_counterexample :
    Reach true sProc ∧ sProc.hasApiKey = true ∧
    transcriptionError 401 mBad401 = "API_KEY_INVALID: " ++ mBad401 ∧
    (translateDone (TransResult.err (transcriptionError 401 mBad401)
        (some "Request failed")) sProc).state = AppState.ERROR ∧
    (translateDone (TransResult.err (transcriptionError 401 mBad401)
        (some "Request failed")) sProc).hasApiKey = true ∧
    (translateDone (TransResult.err (transcriptionError 401 mBad401)
        (some "Request failed")) sProc).errorMsg = some "Request failed" ∧
    containsSub "Request failed" "API Key 无效" = false := by
  refine ⟨?_, by decide, by decide, by decide, by decide, by decide, by decide⟩
  exact ReachG.stop (chunkEvt 200 sRec) 2000
    (ReachG.chunk sRec 200
      (ReachG.start initCtrl 0 StartOutcome.ok sRec ReachG.init (by decide) (by decide)))

/-- C6 amended: for every translation attempt in which the remote service
responds with HTTP status 401, `translateAudio` maps the failure to the
dedicated invalid-credential error class (`API_KEY_INVALID`); and provided
the service message contains no brace (so the JSON cleanup of the catch
block is a no-op) and none of the earlier classification markers
(`Failed to fetch`, `NetworkError`, `MISSING_API_KEY_LOCAL`) — as with real
Groq 401 bodies — the controller then enters ERROR, clears the
configuration-present flag `hasApiKey`, and stores a user-visible message
indicating an invalid credential (`API Key 无效`).  Without those side
conditions the conclusion can fail: see `c6_counterexample`. -/
theorem c6_http401_invalid_credential (s : Ctrl) (m : String) (parsed : Option String)
    (_hs : s.state = AppState.PROCESSING)
    (hb : (transcriptionError 401 m).data.any (fun c => c == braceChar) = false)
    (hn1 : containsSub (transcriptionError 401 m) "Failed to fetch" = false)
    (hn2 : containsSub (transcriptionError 401 m) "NetworkError" = false)
    (hmk : containsSub (transcriptionError 401 m) "MISSING_API_KEY_LOCAL" = false) :
    transcriptionError 401 m = "API_KEY_INVALID: " ++ m ∧
    (translateDone (TransResult.err (transcriptionError 401 m) parsed) s).state =
      AppState.ERROR ∧
    (translateDone (TransResult.err (transcriptionError 401 m) parsed) s).hasApiKey =
      false ∧
    ∃ d, (translateDone (TransResult.err (transcriptionError 401 m) parsed) s).errorMsg =
        some d ∧ containsSub d "API Key 无效" = true := by
  have he : transcriptionError 401 m = "API_KEY_INVALID: " ++ m := by
    unfold transcriptionError
    rw [if_pos rfl]
  have hassoc : "API_KEY_INVALID: " ++ m = "API_KEY_INVALID" ++ (": " ++ m) := by
    rw [show ("API_KEY_INVALID: " : String) = "API_KEY_INVALID" ++ ": " from by decide,
      String.append_assoc]
  have hclean : cleanRaw (transcriptionError 401 m) parsed = transcriptionError 401 m := by
    unfold cleanRaw
    rw [hb]
    simp
  have hkey : containsSub (transcriptionError 401 m) "API_KEY_INVALID" = true := by
    rw [he, hassoc]
    exact containsSub_append_self "API_KEY_INVALID" (": " ++ m)
  have hres : classifyError (transcriptionError 401 m) parsed =
      { display := "API Key 无效: " ++
          replaceFirst (transcriptionError 401 m) "API_KEY_INVALID:" "",
        clearKey := true } := by
    unfold classifyError
    rw [hclean]
    simp [hn1, hn2, hmk, hkey]
  refine ⟨he, rfl, ?_, ?_⟩
  · show (if (classifyError (transcriptionError 401 m) parsed).clearKey then false
        else s.hasApiKey) = false
    simp [hres]
  · refine ⟨"API Key 无效: " ++
      replaceFirst (transcriptionError 401 m) "API_KEY_INVALID:" "", ?_, ?_⟩
    · show some (classifyError (transcriptionError 401 m) parsed).display = _
      simp [hres]
    · rw [show ("API Key 无效: " : String) ++
          replaceFirst (transcriptionError 401 m) "API_KEY_INVALID:" "" =
          "API Key 无效" ++
            (": " ++ replaceFirst (transcriptionError 401 m) "API_KEY_INVALID:" "") from by
        rw [show ("API Key 无效: " : String) = "API Key 无效" ++ ": " from by decide,
          String.append_assoc]]
      exact containsSub_append_self "API Key 无效"
        (": " ++ replaceFirst (transcriptionError 401 m) "API_KEY_INVALID:" "")

/-- Witness for the amended C6: the in-flight session `sProc` and the real
Groq 401 body message, which satisfies all side conditions. -/
theorem c6_witness :
    sProc.state = AppState.PROCESSING ∧
    ((transcriptionError 401 "Invalid API Key").data.any (fun c => c == braceChar) = false ∧
      containsSub (transcriptionError 401 "Invalid API Key") "Failed to fetch" = false ∧
      containsSub (transcriptionError 401 "Invalid API Key") "NetworkError" = false ∧
      containsSub (transcriptionError 401 "Invalid API Key") "MISSING_API_KEY_LOCAL" = false) ∧
    (transcriptionError 401 "Invalid API Key" = "API_KEY_INVALID: " ++ "Invalid API Key" ∧
      (translateDone
        (TransResult.err (transcriptionError 401 "Invalid API Key") none) sProc).state =
        AppState.ERROR ∧
      (translateDone
        (TransResult.err (transcriptionError 401 "Invalid API Key") none) sProc).hasApiKey =
        false ∧
      ∃ d, (translateDone
          (TransResult.err (transcriptionError 401 "Invalid API Key") none) sProc).errorMsg =
          some d ∧ containsSub d "API Key 无效" = true) := by
  exact ⟨by decide, ⟨by decide, by decide, by decide, by decide⟩,
    c6_http401_invalid_credential sProc "Invalid API Key" none (by decide) (by decide)
      (by decide) (by decide) (by decide)⟩

/-- C7 (code defect exhibited): when `startRecording` acquires the
microphone and builds the audio graph but a later step throws (the
`MediaRecorder` construction), the catch block of `App.tsx` surfaces ERROR
without stopping the stream tracks or closing the audio context: the state
`sLeak` is reachable, shows the error, and still holds the microphone and
the audio graph — an exit from RECORDING to ERROR with no resource
release, contradicting the release-on-every-exit-path claim. -/
theorem c7_start_failure_leaks_microphone :
    Reach true sLeak ∧ sLeak.state = AppState.ERROR ∧
    sLeak.errorMsg.isSome = true ∧ sLeak.micHeld = true ∧ sLeak.graphOpen = true := by
  refine ⟨?_, by decide, by decide, by decide, by decide⟩
  exact ReachG.start initCtrl 0
    (StartOutcome.postAcquireFail "NotSupportedError" "Failed to construct MediaRecorder")
    sLeak ReachG.init (by decide) (by decide)

/-- C8: for every session whose translation call succeeds, the state becomes
SPEAKING, speech output is requested with the language produced by
`detectLanguageFromText` on the translated text, a fixed 1000 ms reset timer
is armed, and firing that timer makes the state IDLE while the
speech-output flag is untouched — the reset is not gated on speech-output
completion. -/
theorem c8_success_speaks_then_times_out_to_idle (s : Ctrl) (t : String)
    (_hs : s.state = AppState.PROCESSING) :
    (translateDone (TransResult.ok t) s).state = AppState.SPEAKING ∧
    (translateDone (TransResult.ok t) s).translation = some t ∧
    (translateDone (TransResult.ok t) s).lastSpeech =
      some (t, detectLanguageFromText t) ∧
    (translateDone (TransResult.ok t) s).resetTimer = some 1000 ∧
    (translateDone (TransResult.ok t) s).speechActive = true ∧
    (resetFire (translateDone (TransResult.ok t) s)).state = AppState.IDLE ∧
    (resetFire (translateDone (TransResult.ok t) s)).speechActive = true := by
  exact ⟨rfl, rfl, rfl, rfl, rfl, rfl, rfl⟩

/-- Witness for C8: the scenario of the spec — a 2000 ms session whose
translation resolves with `你好`, classified `zh`. -/
theorem c8_witness :
    sProc.state = AppState.PROCESSING ∧
    detectLanguageFromText "你好" = Lang.zh ∧
    ((translateDone (TransResult.ok "你好") sProc).state = AppState.SPEAKING ∧
      (translateDone (TransResult.ok "你好") sProc).translation = some "你好" ∧
      (translateDone (TransResult.ok "你好") sProc).lastSpeech =
        some ("你好", detectLanguageFromText "你好") ∧
      (translateDone (TransResult.ok "你好") sProc).resetTimer = some 1000 ∧
      (translateDone (TransResult.ok "你好") sProc).speechActive = true ∧
      (resetFire (translateDone (TransResult.ok "你好") sProc)).state = AppState.IDLE ∧
      (resetFire (translateDone (TransResult.ok "你好") sProc)).speechActive = true) := by
  exact ⟨by decide, by decide,
    c8_success_speaks_then_times_out_to_idle sProc "你好" (by decide)⟩

/-- Counterexample for C9 as stated: when the platform grants the capability
check but denies permission (`getUserMedia` rejects with
`NotAllowedError`), the controller's visible state sequence is
RECORDING then ERROR — `setAppState(RECORDING)` runs before the permission
request resolves, so the session does pass through RECORDING on its way to
ERROR, contradicting the direct IDLE-to-ERROR claim for the deny case. -/
theorem c9_counterexample :
    (startVisited true 0 (StartOutcome.gumDenied "NotAllowedError" "Permission denied")
        initCtrl).map Ctrl.state = [AppState.RECORDING, AppState.ERROR] ∧
    (startVisited true 0 (StartOutcome.gumDenied "NotAllowedError" "Permission denied")
        initCtrl).map Ctrl.errorMsg = [none, some permDeniedMsg] := by
  exact ⟨by decide, by decide⟩

/-- C9 amended: when the platform lacks capture capability entirely
(`navigator.mediaDevices`/`getUserMedia` absent), `startRecording` fails
with the capture-unavailable message and transitions directly to ERROR
without ever entering RECORDING; when the platform denies permission
(`getUserMedia` rejects), the controller first enters RECORDING (the state
is set before the permission request resolves) and then transitions to
ERROR with the mapped capture-unavailable message. -/
theorem c9_amended_capture_unavailable_paths (s : Ctrl) (now : Nat) (o : StartOutcome)
    (name msg : String) :
    ((startVisited false now o s).map Ctrl.state = [AppState.ERROR] ∧
      (startVisited false now o s).map Ctrl.errorMsg = [some noMediaMsg] ∧
      ∀ x ∈ startVisited false now o s, x.state ≠ AppState.RECORDING) ∧
    ((startVisited true now (StartOutcome.gumDenied name msg) s).map Ctrl.state =
        [AppState.RECORDING, AppState.ERROR] ∧
      (startVisited true now (StartOutcome.gumDenied name msg) s).map Ctrl.errorMsg =
        [none, some (gumErrMsg name msg)]) := by
  refine ⟨⟨rfl, rfl, ?_⟩, rfl, rfl⟩
  intro x hx
  simp only [startVisited, Bool.false_eq_true, if_false, List.mem_singleton] at hx
  rw [hx]
  exact fun hc => AppState.noConfusion hc

/-- C10: on every `startRecording` invocation on a capture-capable platform,
regardless of the previous session's outcome, the first visible state clears
`translatedText` and `error` and cancels any ongoing utterance before
recording begins; and on a platform without capture capability no stale
translation or playback can exist at all. -/
theorem c10_start_clears_previous_session (media : Bool) (s : Ctrl) (now : Nat)
    (o : StartOutcome) (hreach : Reach media s) :
    ((startVisited true now o s).head? = some (startClear now s) ∧
      (startClear now s).state = AppState.RECORDING ∧
      (startClear now s).translation = none ∧
      (startClear now s).errorMsg = none ∧
      (startClear now s).speechActive = false) ∧
    (media = false → s.translation = none ∧ s.speechActive = false) := by
  refine ⟨⟨?_, rfl, rfl, rfl, rfl⟩, fun hm =>
    ⟨((inv2_reach hreach).2 hm).2.1, ((inv2_reach hreach).2 hm).2.2.2.1⟩⟩
  cases o <;> rfl

/-- Witness for C10: a start invocation from the post-playback IDLE state
of the concrete successful session, which still holds a stale translation. -/
theorem c10_witness :
    Reach true (resetFire sSpeak) ∧ (resetFire sSpeak).translation = some "你好" ∧
    (((startVisited true 5000 StartOutcome.ok (resetFire sSpeak)).head? =
        some (startClear 5000 (resetFire sSpeak)) ∧
      (startClear 5000 (resetFire sSpeak)).state = AppState.RECORDING ∧
      (startClear 5000 (resetFire sSpeak)).translation = none ∧
      (startClear 5000 (resetFire sSpeak)).errorMsg = none ∧
      (startClear 5000 (resetFire sSpeak)).speechActive = false) ∧
    (true = false → (resetFire sSpeak).translation = none ∧
      (resetFire sSpeak).speechActive = false)) := by
  have hr : Reach true (resetFire sSpeak) :=
    ReachG.reset sSpeak
      (ReachG.translate sProc (TransResult.ok "你好")
        (ReachG.stop (chunkEvt 200 sRec) 2000
          (ReachG.chunk sRec 200
            (ReachG.start initCtrl 0 StartOutcome.ok sRec ReachG.init (by decide) (by decide))))
        (by decide))
  exact ⟨hr, by decide,
    c10_start_clears_previous_session true (resetFire sSpeak) 5000 StartOutcome.ok hr⟩
